import Mathlib

/-!
# Subscribers service: request router over a record store

A shallow embedding of `src/src/app.js`: the Express application that exposes
create / read / delete operations on subscriber documents.

* Values of request bodies and documents are JavaScript values (`JVal`); a
  document or a request body is a list of fields (`Doc`).
* The mongoose model `schema` (`./models/subscribers`) is the record store.  The
  handlers are written against an interface `Store σ` whose operations pass the
  store state explicitly and may fail with a `StoreError` (a rejected promise).
* Every handler of `app.js` is one function from the request data and the store
  state to the response and the new store state.
* The application is the middleware stack of `app.js`: the body parsers, the
  routes in the order of their registration, and the final middleware.
-/

set_option autoImplicit false

namespace Subscribers

/-! ## JavaScript values and documents -/

/-- A JavaScript value as it occurs in a parsed request body or in a document.
`object` stands for any object or array value; only its truthiness matters to
the handlers.  Numbers are restricted to integers. -/
inductive JVal where
  | undefined
  | null
  | bool (b : Bool)
  | num (n : Int)
  | str (s : String)
  | object
  deriving DecidableEq, Repr

/-- JavaScript truthiness, the meaning of `!v` being false. -/
def JVal.truthy : JVal → Bool
  | .undefined => false
  | .null => false
  | .bool b => b
  | .num n => n != 0
  | .str s => s != ""
  | .object => true

/-- A document (or a parsed request body): field names with their values, in order. -/
abbrev Doc := List (String × JVal)

/-- Property access `d.key`: the value of the first field named `key`, and
`undefined` when there is none. -/
def Doc.get (d : Doc) (key : String) : JVal :=
  match d.lookup key with
  | some v => v
  | none => .undefined

/-- Whether the document has a field named `key`. -/
def Doc.hasField (d : Doc) (key : String) : Bool :=
  (d.lookup key).isSome

/-- An object literal as serialised by `res.json`: fields whose value is
`undefined` are left out. -/
def jsonObj (fields : List (String × JVal)) : Doc :=
  fields.filter (fun kv => kv.2 != JVal.undefined)

/-! ## The record store interface -/

/-- The error a store operation rejects with; the handlers read only `message`. -/
structure StoreError where
  message : String
  deriving DecidableEq, Repr

/-- A projection argument of `find`: field names with `true` for `1` and `false` for `0`. -/
abbrev Projection := List (String × Bool)

/-- A store operation: from the store state to a result or an error, and the
store state afterwards. -/
abbrev StoreM (σ α : Type) := σ → Except StoreError α × σ

/-- The operations of the mongoose model that `app.js` calls.
`find` is `schema.find()` (no projection) or `schema.find({}, projection)`;
`save` is `new schema(doc).save()`. -/
structure Store (σ : Type) where
  find : Option Projection → StoreM σ (List Doc)
  findById : String → StoreM σ (Option Doc)
  save : Doc → StoreM σ Doc
  findByIdAndDelete : String → StoreM σ (Option Doc)

/-! ## Responses -/

/-- The body of a response. -/
inductive Body where
  /-- The JSON object with the single field `message`. -/
  | message (m : String)
  /-- A document sent as JSON. -/
  | doc (d : Doc)
  /-- An array of documents sent as JSON. -/
  | docs (ds : List Doc)
  /-- The JSON object with the fields `message` and `deletedSubscriber`. -/
  | deleted (m : String) (deletedSubscriber : Doc)
  /-- A file sent with `res.sendFile`. -/
  | file (name : String)
  /-- The output of the framework's error handler for an error with the given message. -/
  | errorPage (message : String)
  deriving DecidableEq, Repr

/-- An HTTP response: status code and body. -/
structure Response where
  status : Nat
  body : Body
  deriving DecidableEq, Repr

/-- What a handler does with a request: it sends a response, or it sets a status
and passes an error on with `next(err)`. -/
inductive Outcome where
  | sent (res : Response)
  | nextErr (status : Nat) (err : StoreError)
  deriving DecidableEq, Repr

/-- The end of the middleware stack for an outcome.  An error passed to `next`
skips the remaining (non-error) middleware and is answered by the framework's
error handler with the status already set on the response. -/
def finalize : Outcome → Response
  | .sent res => res
  | .nextErr status err => ⟨status, .errorPage err.message⟩

/-! ## The handlers of `app.js` -/

/-- The projection of `GET /subscribers/names`: `{ name: 1, subscribedChannel: 1, _id: 0 }`. -/
def namesProjection : Projection :=
  [("name", true), ("subscribedChannel", true), ("_id", false)]

/-- Handler of `app.get("/")`: the landing page. -/
def getHome : Outcome :=
  .sent ⟨200, .file "index.html"⟩

/-- Handler of `app.get("/subscribers")`. -/
def getSubscribers {σ : Type} (S : Store σ) (s : σ) : Outcome × σ :=
  match S.find none s with
  | (.ok subscribers, s1) => (.sent ⟨200, .docs subscribers⟩, s1)
  | (.error err, s1) => (.nextErr 400 err, s1)

/-- Handler of `app.get("/subscribers/names")`. -/
def getSubscribersNames {σ : Type} (S : Store σ) (s : σ) : Outcome × σ :=
  match S.find (some namesProjection) s with
  | (.ok subscribers, s1) => (.sent ⟨200, .docs subscribers⟩, s1)
  | (.error err, s1) => (.nextErr 400 err, s1)

/-- Handler of `app.get("/subscribers/:id")`; `id` is `req.params.id`. -/
def getSubscribersId {σ : Type} (S : Store σ) (id : String) (s : σ) : Outcome × σ :=
  if id = "" then
    (.sent ⟨400, .message "No ID provided"⟩, s)
  else
    match S.findById id s with
    | (.ok none, s1) => (.sent ⟨404, .message "Subscriber not found"⟩, s1)
    | (.ok (some subscriber), s1) => (.sent ⟨200, .doc subscriber⟩, s1)
    | (.error error, s1) => (.sent ⟨400, .message error.message⟩, s1)

/-- Handler of `app.post("/subscribers")`; `body` is `req.body`. -/
def postSubscribers {σ : Type} (S : Store σ) (body : Doc) (s : σ) : Outcome × σ :=
  let name := body.get "name"
  let subscribedChannel := body.get "subscribedChannel"
  if !name.truthy || !subscribedChannel.truthy then
    (.sent ⟨400, .message "Name and Subscribed Channel are required"⟩, s)
  else
    match S.save [("name", name), ("subscribedChannel", subscribedChannel)] s with
    | (.ok savedSubscriber, s1) => (.sent ⟨201, .doc savedSubscriber⟩, s1)
    | (.error error, s1) => (.sent ⟨400, .message error.message⟩, s1)

/-- Handler of `app.post("/subscribers/names")`. -/
def postSubscribersNames {σ : Type} (S : Store σ) (body : Doc) (s : σ) : Outcome × σ :=
  let name := body.get "name"
  let subscribedChannel := body.get "subscribedChannel"
  if !name.truthy || !subscribedChannel.truthy then
    (.sent ⟨400, .message "Name and Subscribed Channel are required"⟩, s)
  else
    match S.save [("name", name), ("subscribedChannel", subscribedChannel)] s with
    | (.ok savedSubscriber, s1) =>
      let responseSubscriber := jsonObj
        [("name", savedSubscriber.get "name"),
         ("subscribedChannel", savedSubscriber.get "subscribedChannel")]
      (.sent ⟨201, .doc responseSubscriber⟩, s1)
    | (.error error, s1) => (.sent ⟨400, .message error.message⟩, s1)

/-- Handler of `app.post("/subscribers/:id")`. -/
def postSubscribersId {σ : Type} (S : Store σ) (id : String) (body : Doc) (s : σ) :
    Outcome × σ :=
  let name := body.get "name"
  let subscribedChannel := body.get "subscribedChannel"
  if id = "" || !name.truthy || !subscribedChannel.truthy then
    (.sent ⟨400, .message "ID, Name, and Subscribed Channel are required"⟩, s)
  else
    match S.save [("_id", .str id), ("name", name), ("subscribedChannel", subscribedChannel)] s with
    | (.ok savedSubscriber, s1) => (.sent ⟨201, .doc savedSubscriber⟩, s1)
    | (.error error, s1) => (.sent ⟨400, .message error.message⟩, s1)

/-- Handler of `app.delete("/subscribers/:id")`. -/
def deleteSubscribersId {σ : Type} (S : Store σ) (id : String) (s : σ) : Outcome × σ :=
  if id = "" then
    (.sent ⟨400, .message "No ID provided"⟩, s)
  else
    match S.findByIdAndDelete id s with
    | (.ok none, s1) => (.sent ⟨404, .message "Subscriber not found"⟩, s1)
    | (.ok (some deletedSubscriber), s1) =>
      (.sent ⟨200, .deleted "Subscriber deleted successfully" deletedSubscriber⟩, s1)
    | (.error error, s1) => (.sent ⟨400, .message error.message⟩, s1)

/-- The last middleware, `app.use((req, res) => ...)`: the answer to every
request that no route has handled. -/
def notFound : Outcome :=
  .sent ⟨404, .message "Error - Route not found"⟩

/-! ## Requests, body parsing and routing -/

/-- The request method. -/
inductive Method where
  | GET | HEAD | POST | PUT | DELETE | PATCH | OPTIONS
  | other (name : String)
  deriving DecidableEq, Repr

/-- An error that the framework raises before a handler runs: the status it
carries and its message. -/
structure HttpError where
  status : Nat
  message : String
  deriving DecidableEq, Repr

/-- What the body parsers `express.json()` and `express.urlencoded()`, the first
middleware of `app.js`, make of the body of a request: the parsed object (the
empty object for a request without a body), or the error with which a parser
rejects the body, such as status 400 for malformed JSON. -/
inductive RequestBody where
  | parsed (body : Doc)
  | rejected (err : HttpError)
  deriving DecidableEq, Repr

/-- A request: method, path of the URL (without the query string) and body. -/
structure Request where
  method : Method
  path : String
  body : RequestBody
  deriving DecidableEq, Repr

/-- One segment of a route path: a literal, or a named parameter such as `:id`. -/
inductive Seg where
  | lit (s : String)
  | param
  deriving DecidableEq, Repr

/-- The handlers of `app.js`, in the order of registration, and the final middleware. -/
inductive Handler where
  | home
  | subscribers
  | names
  | byId
  | create
  | createNames
  | createById
  | remove
  | fallback
  deriving DecidableEq, Repr

/-- The pieces of a path between its slashes: `/a/b` gives `["", "a", "b"]`. -/
def splitPath : List Char → List (List Char)
  | [] => [[]]
  | c :: cs =>
    if c = '/' then [] :: splitPath cs
    else
      match splitPath cs with
      | [] => [[c]]
      | seg :: rest => (c :: seg) :: rest

/-- The segments of a request path that a route pattern is compared with: the
path has to start with a slash, and one trailing slash is ignored (routing is
not strict).  `none` when the path does not start with a slash (the empty path
counts as `/`). -/
def pathSegments (path : String) : Option (List String) :=
  match splitPath path.data with
  | [] :: rest =>
    let rest := if rest.getLast? = some [] then rest.dropLast else rest
    some (rest.map String.mk)
  | _ => none

/-- Comparison of a path segment with a literal of a route; routing is not
case sensitive. -/
def segEq (x l : String) : Bool :=
  x.data.map Char.toLower == l.data.map Char.toLower

/-- Matching of path segments against a route pattern; the result is the list
of the parameter values.  A parameter matches one non-empty segment. -/
def matchPattern : List Seg → List String → Option (List String)
  | [], [] => some []
  | .lit l :: ps, x :: xs => if segEq x l then matchPattern ps xs else none
  | .param :: ps, x :: xs =>
    if x = "" then none else (matchPattern ps xs).map (fun vs => x :: vs)
  | _, _ => none

/-- The value of a hexadecimal digit. -/
def hexDigit (c : Char) : Option Nat :=
  if '0' ≤ c ∧ c ≤ '9' then some (c.toNat - 48)
  else if 'a' ≤ c ∧ c ≤ 'f' then some (c.toNat - 87)
  else if 'A' ≤ c ∧ c ≤ 'F' then some (c.toNat - 55)
  else none

/-- The byte that the two hexadecimal digits of an escape `%XY` denote. -/
def escapedByte (a b : Char) : Option Nat :=
  match hexDigit a, hexDigit b with
  | some x, some y => some (16 * x + y)
  | _, _ => none

/-- Percent-decoding of a list of characters as JavaScript's `decodeURIComponent`
does it.  `pending` is `none` between characters; inside a UTF-8 sequence it is
`some (n, v, least)`: `n` continuation bytes are still due, `v` is the value
read so far and `least` the least value that a sequence of this length may
encode.  The result is `none` where `decodeURIComponent` throws: an escape
without two hexadecimal digits, or escapes that are not the UTF-8 encoding of
a code point. -/
def decodeChars : Option (Nat × Nat × Nat) → List Char → Option (List Char)
  | none, [] => some []
  | some _, [] => none
  | none, '%' :: a :: b :: rest =>
    match escapedByte a b with
    | none => none
    | some byte =>
      if byte < 128 then (decodeChars none rest).map (fun cs => Char.ofNat byte :: cs)
      else if byte < 192 then none
      else if byte < 224 then decodeChars (some (1, byte - 192, 128)) rest
      else if byte < 240 then decodeChars (some (2, byte - 224, 2048)) rest
      else if byte < 248 then decodeChars (some (3, byte - 240, 65536)) rest
      else none
  | none, c :: rest =>
    if c = '%' then none else (decodeChars none rest).map (fun cs => c :: cs)
  | some (n, v, least), '%' :: a :: b :: rest =>
    match escapedByte a b with
    | none => none
    | some byte =>
      if 128 ≤ byte ∧ byte < 192 then
        if n ≤ 1 then
          if least ≤ v * 64 + (byte - 128) ∧ Nat.isValidChar (v * 64 + (byte - 128)) then
            (decodeChars none rest).map (fun cs => Char.ofNat (v * 64 + (byte - 128)) :: cs)
          else none
        else decodeChars (some (n - 1, v * 64 + (byte - 128), least)) rest
      else none
  | some _, _ :: _ => none

/-- JavaScript's `decodeURIComponent`, with which the router decodes the value
of a path parameter; `none` where it throws. -/
def decodeURIComponent (s : String) : Option String :=
  (decodeChars none s.data).map String.mk

/-- Decoding of the parameter values of a matched path, in order; the error is
the first value that cannot be decoded. -/
def decodeParams : List String → Except String (List String)
  | [] => .ok []
  | v :: vs =>
    match decodeURIComponent v with
    | none => .error v
    | some d =>
      match decodeParams vs with
      | .ok ds => .ok (d :: ds)
      | .error e => .error e

/-- Whether a route registered for method `m` takes a request of method `r`:
the same method, or a `HEAD` request on a `GET` route. -/
def handlesMethod (m r : Method) : Bool :=
  r == m || (r == .HEAD && m == .GET)

/-- The routes of `app.js` in the order of their registration. -/
def routes : List (Method × List Seg × Handler) :=
  [ (.GET, [], .home),
    (.GET, [.lit "subscribers"], .subscribers),
    (.GET, [.lit "subscribers", .lit "names"], .names),
    (.GET, [.lit "subscribers", .param], .byId),
    (.POST, [.lit "subscribers"], .create),
    (.POST, [.lit "subscribers", .lit "names"], .createNames),
    (.POST, [.lit "subscribers", .param], .createById),
    (.DELETE, [.lit "subscribers", .param], .remove) ]

/-- The raw parameter values with which the path of a route matches a request
path, when it does. -/
def matchPath (pattern : List Seg) (path : String) : Option (List String) :=
  match pathSegments path with
  | some segs => matchPattern pattern segs
  | none => none

/-- Where the router sends a request: to a handler with the decoded route
parameters, or to the framework's error handler because the value of a path
parameter cannot be decoded. -/
inductive Routed where
  | handler (h : Handler) (params : List String)
  | paramError (value : String)
  deriving DecidableEq, Repr

/-- The walk of the router through the routes in order.  A route is tried by
its path first, which decodes the parameters, and then by its method; the first
route that passes both answers.  A parameter that cannot be decoded ends the
walk with an error, whatever the method.  When no route is left the final
middleware answers. -/
def firstMatch (req : Request) : List (Method × List Seg × Handler) → Routed
  | [] => .handler .fallback []
  | r :: rs =>
    match matchPath r.2.1 req.path with
    | none => firstMatch req rs
    | some raw =>
      match decodeParams raw with
      | .error value => .paramError value
      | .ok params =>
        if handlesMethod r.1 req.method then .handler r.2.2 params
        else firstMatch req rs

/-- The handler that answers a request, with the route parameters: the first
matching route of `app.js`, and the final middleware when no route matches. -/
def route (req : Request) : Routed :=
  firstMatch req routes

/-- The handler functions by name; `id` is `req.params.id`, `body` is `req.body`. -/
def runHandler {σ : Type} (S : Store σ) (h : Handler) (id : String) (body : Doc) (s : σ) :
    Outcome × σ :=
  match h with
  | .home => (getHome, s)
  | .subscribers => getSubscribers S s
  | .names => getSubscribersNames S s
  | .byId => getSubscribersId S id s
  | .create => postSubscribers S body s
  | .createNames => postSubscribersNames S body s
  | .createById => postSubscribersId S id body s
  | .remove => deleteSubscribersId S id s
  | .fallback => (notFound, s)

/-- The status with which the framework's error handler answers an error that
carries a status: that status when it is an error status, and 500 otherwise. -/
def errorStatus (err : HttpError) : Nat :=
  if 400 ≤ err.status ∧ err.status < 600 then err.status else 500

/-- The application: the response to a request and the store state afterwards.
The body parsers come first (`app.js` 11-12): a body that they reject is an
error, which skips the routes and the final middleware and is answered by the
framework's error handler.  Then the router takes the request to a handler; a
path parameter that cannot be decoded is an error with status 400, answered in
the same way. -/
def app {σ : Type} (S : Store σ) (req : Request) (s : σ) : Response × σ :=
  match req.body with
  | .rejected err => (⟨errorStatus err, .errorPage err.message⟩, s)
  | .parsed body =>
    match route req with
    | .paramError value =>
      (⟨400, .errorPage ("Failed to decode param \x27" ++ value ++ "\x27")⟩, s)
    | .handler h params =>
      let r := runHandler S h (params.headD "") body s
      (finalize r.1, r.2)

/-- Whether a request method is served by the `GET` routes: `GET` itself, and
`HEAD`, which the router serves by the `GET` route of the path. -/
def Method.isGet (m : Method) : Bool :=
  m == .GET || m == .HEAD

/-- The routes as the specification lists them in section 6, read as a table
from method and path to the operation: `GET /`, `GET /subscribers`,
`GET /subscribers/names`, `GET /subscribers/:id`, `POST /subscribers`,
`POST /subscribers/names`, `POST /subscribers/:id` and `DELETE /subscribers/:id`,
where `:id` is any non-empty segment and the path `names` is not an `:id` for
`GET` and `POST`.  `none` when method and path match none of them. -/
def listedRoute (m : Method) (path : String) : Option Handler :=
  match pathSegments path with
  | some [] => if m.isGet then some .home else none
  | some [a] =>
    if segEq a "subscribers" then
      if m.isGet then some .subscribers
      else if m = .POST then some .create
      else none
    else none
  | some [a, x] =>
    if segEq a "subscribers" && x != "" then
      if m.isGet then (if segEq x "names" then some .names else some .byId)
      else if m = .POST then (if segEq x "names" then some .createNames else some .createById)
      else if m = .DELETE then some .remove
      else none
    else none
  | _ => none

/-- Whether the path has the shape `/subscribers/:id` with a value for `:id`
that cannot be percent-decoded. -/
def undecodable (path : String) : Bool :=
  match pathSegments path with
  | some [a, x] => segEq a "subscribers" && x != "" && (decodeURIComponent x).isNone
  | _ => false

/-! ## Counting the store calls -/

/-- A call of a store operation with its argument. -/
inductive Call where
  | find (p : Option Projection)
  | findById (id : String)
  | save (d : Doc)
  | findByIdAndDelete (id : String)
  deriving DecidableEq, Repr

/-- The store `S` with a log: every operation behaves as in `S` and appends its
call to the log. -/
def Store.logged {σ : Type} (S : Store σ) : Store (σ × List Call) where
  find p := fun sl => ((S.find p sl.1).1, ((S.find p sl.1).2, sl.2 ++ [Call.find p]))
  findById id := fun sl =>
    ((S.findById id sl.1).1, ((S.findById id sl.1).2, sl.2 ++ [Call.findById id]))
  save d := fun sl => ((S.save d sl.1).1, ((S.save d sl.1).2, sl.2 ++ [Call.save d]))
  findByIdAndDelete id := fun sl =>
    ((S.findByIdAndDelete id sl.1).1,
      ((S.findByIdAndDelete id sl.1).2, sl.2 ++ [Call.findByIdAndDelete id]))

/-! ## The record store in memory -/

/-- Modelled from the spec: a persisted subscriber of the record store (section 3):
its identifier, name and subscribed channel. -/
structure Subscriber where
  _id : String
  name : String
  subscribedChannel : String
  deriving DecidableEq, Repr

/-- Modelled from the spec: the document of a subscriber with all its fields. -/
def Subscriber.toDoc (r : Subscriber) : Doc :=
  [("_id", .str r._id), ("name", .str r.name), ("subscribedChannel", .str r.subscribedChannel)]

/-- Modelled from the spec: the format of identifiers, which the record store
fixes and the specification leaves open: which texts are well-formed identifiers, and the identifier the store assigns at each value of
its counter.  The empty text is no identifier. -/
structure IdScheme where
  wellFormed : String → Bool
  generate : Nat → String
  wellFormed_empty : wellFormed "" = false

/-- Modelled from the spec: the state of the record store, that is the persisted
records and the counter from which identifiers are assigned. -/
structure MemState where
  records : List Subscriber
  counter : Nat
  deriving DecidableEq, Repr

/-- Modelled from the spec: the identifiers of the persisted records. -/
def MemState.ids (st : MemState) : List String :=
  st.records.map (fun r => r._id)

/-- Modelled from the spec: the fields of a document that a projection of the
record store keeps.  A projection that selects a field (other than `_id`) keeps
the selected fields, and `_id` unless it is excluded; a projection that only
excludes keeps all other fields. -/
def applyProjection (p : Projection) (d : Doc) : Doc :=
  if p.any (fun f => f.2 && f.1 != "_id") then
    d.filter (fun kv =>
      if kv.1 = "_id" then p.lookup "_id" != some false else p.lookup kv.1 == some true)
  else
    d.filter (fun kv => p.lookup kv.1 != some false)

/-- Modelled from the spec: the record with the given identifier. -/
def MemState.lookup (st : MemState) (id : String) : Option Subscriber :=
  st.records.find? (fun r => r._id == id)

/-- Modelled from the spec: insertion of a record into the record store under
identifier `id`, rejected when `id` is malformed or already the identifier of a
record (identifiers are unique). -/
def memInsert (sch : IdScheme) (id name subscribedChannel : String) (st : MemState) :
    Except StoreError Doc × MemState :=
  if !sch.wellFormed id then
    (.error ⟨"malformed id"⟩, st)
  else if id ∈ st.ids then
    (.error ⟨"duplicate id"⟩, st)
  else
    (.ok (Subscriber.toDoc ⟨id, name, subscribedChannel⟩),
      ⟨st.records ++ [⟨id, name, subscribedChannel⟩], st.counter⟩)

/-- Modelled from the spec: the record store, that is the mongoose model
`./models/subscribers` with its database, which is not among the sources.
Following sections 3, 6 and 7 of the specification: a subscriber has a
store-assigned unique identifier and a non-empty name and subscribed channel;
`create` takes the two fields and optionally a caller-supplied identifier and
answers with the record or a store error; `findAll` answers with all records,
optionally projected; `findById` and `deleteById` answer with the record, with
null when there is none, and with a store error for a malformed identifier.
The connection to the database is outside the model. -/
def memStore (sch : IdScheme) : Store MemState where
  find p := fun st =>
    match p with
    | none => (.ok (st.records.map Subscriber.toDoc), st)
    | some proj => (.ok (st.records.map (fun r => applyProjection proj r.toDoc)), st)
  findById id := fun st =>
    if sch.wellFormed id then (.ok ((st.lookup id).map Subscriber.toDoc), st)
    else (.error ⟨"malformed id"⟩, st)
  save d := fun st =>
    match d.get "name", d.get "subscribedChannel" with
    | .str name, .str subscribedChannel =>
      if name = "" || subscribedChannel = "" then
        (.error ⟨"name and subscribedChannel must not be empty"⟩, st)
      else
        match d.get "_id" with
        | .undefined =>
          memInsert sch (sch.generate st.counter) name subscribedChannel
            ⟨st.records, st.counter + 1⟩
        | .str id => memInsert sch id name subscribedChannel st
        | _ => (.error ⟨"malformed id"⟩, st)
    | _, _ => (.error ⟨"name and subscribedChannel must be text"⟩, st)
  findByIdAndDelete id := fun st =>
    if sch.wellFormed id then
      match st.lookup id with
      | none => (.ok none, st)
      | some r => (.ok (some r.toDoc), ⟨st.records.filter (fun x => x._id != id), st.counter⟩)
    else (.error ⟨"malformed id"⟩, st)

/-- Modelled from the spec: the invariant of the record store (section 3): the
identifiers of the records are well-formed and pairwise different, and names
and channels are not empty. -/
def MemState.Valid (sch : IdScheme) (st : MemState) : Prop :=
  st.ids.Nodup ∧
    ∀ r ∈ st.records, sch.wellFormed r._id = true ∧ r.name ≠ "" ∧ r.subscribedChannel ≠ ""

/-- An identifier scheme for examples: identifiers are the non-empty texts of
lower-case hexadecimal digits, and the store assigns `1`, `11`, `111`, ... -/
def hexScheme : IdScheme where
  wellFormed s := s.data != [] && s.data.all (fun c => c.isDigit || ('a' ≤ c && c ≤ 'f'))
  generate n := String.mk (List.replicate (n + 1) '1')
  wellFormed_empty := by decide

/-- The empty store. -/
def MemState.empty : MemState := ⟨[], 0⟩

/-! ## Validation and store calls of the handlers, by name -/

/-- The fields that a create handler requires. -/
inductive Field where
  | id
  | name
  | subscribedChannel
  deriving DecidableEq, Repr

/-- Whether a field is missing from a request in the sense of the handlers'
checks: the path parameter or the body field is falsy. -/
def Field.missing (f : Field) (id : String) (body : Doc) : Bool :=
  match f with
  | .id => id == ""
  | .name => !(body.get "name").truthy
  | .subscribedChannel => !(body.get "subscribedChannel").truthy

/-- The fields whose presence a handler checks before it calls the store. -/
def requiredFields : Handler → List Field
  | .byId => [.id]
  | .create => [.name, .subscribedChannel]
  | .createNames => [.name, .subscribedChannel]
  | .createById => [.id, .name, .subscribedChannel]
  | .remove => [.id]
  | _ => []

/-- The store call that a handler makes for a request that passes its checks. -/
def storeCall (h : Handler) (id : String) (body : Doc) : Option Call :=
  match h with
  | .home => none
  | .subscribers => some (.find none)
  | .names => some (.find (some namesProjection))
  | .byId => some (.findById id)
  | .create =>
    some (.save [("name", body.get "name"), ("subscribedChannel", body.get "subscribedChannel")])
  | .createNames =>
    some (.save [("name", body.get "name"), ("subscribedChannel", body.get "subscribedChannel")])
  | .createById =>
    some (.save [("_id", .str id), ("name", body.get "name"),
      ("subscribedChannel", body.get "subscribedChannel")])
  | .remove => some (.findByIdAndDelete id)
  | .fallback => none

/-- The error with which a store call fails in a state, if it fails. -/
def Store.failure {σ : Type} (S : Store σ) (c : Call) (s : σ) : Option StoreError :=
  match c with
  | .find p => match (S.find p s).1 with
    | .error e => some e
    | .ok _ => none
  | .findById id => match (S.findById id s).1 with
    | .error e => some e
    | .ok _ => none
  | .save d => match (S.save d s).1 with
    | .error e => some e
    | .ok _ => none
  | .findByIdAndDelete id => match (S.findByIdAndDelete id s).1 with
    | .error e => some e
    | .ok _ => none

/-- The name under which a message refers to a field. -/
def Field.label : Field → String
  | .id => "ID"
  | .name => "Name"
  | .subscribedChannel => "Subscribed Channel"

/-- Whether the characters `part` occur in `text` as a contiguous piece. -/
def occursIn (part : List Char) : List Char → Bool
  | [] => part.isEmpty
  | c :: cs => part.isPrefixOf (c :: cs) || occursIn part cs

/-- Whether a message names a field. -/
def mentions (msg : String) (f : Field) : Bool :=
  occursIn f.label.data msg.data

/-- The message with which a create handler rejects a request. -/
def rejectionMessage : Handler → String
  | .createById => "ID, Name, and Subscribed Channel are required"
  | _ => "Name and Subscribed Channel are required"

/-- A message enumerates the missing fields of a request to handler `h` when it
names just those of the required fields that are missing from the request. -/
def enumeratesMissing (msg : String) (h : Handler) (id : String) (body : Doc) : Prop :=
  ∀ f ∈ requiredFields h, (mentions msg f = true ↔ f.missing id body = true)

/-! ## Theorems -/

/-- C2. `POST /subscribers` with `name` or `subscribedChannel` absent or the empty
string answers 400 with the message "Name and Subscribed Channel are required",
calls no store operation (the call log stays empty) and leaves the store state
as it was. -/
theorem postSubscribers_missing_field {σ : Type} (S : Store σ) (s : σ) (body : Doc)
    (h : body.get "name" = .undefined ∨ body.get "name" = .str "" ∨
      body.get "subscribedChannel" = .undefined ∨ body.get "subscribedChannel" = .str "") :
    postSubscribers S.logged body (s, []) =
      (.sent ⟨400, .message "Name and Subscribed Channel are required"⟩, (s, [])) := by
  unfold postSubscribers
  rcases h with h | h | h | h <;> simp [h, JVal.truthy]

/-- C2, at a stored record and a body without `name`. -/
theorem postSubscribers_missing_field_witness :
    postSubscribers (memStore hexScheme).logged [("subscribedChannel", .str "Tech")]
        (⟨[⟨"a1", "Alice", "Tech"⟩], 0⟩, []) =
      (.sent ⟨400, .message "Name and Subscribed Channel are required"⟩,
        (⟨[⟨"a1", "Alice", "Tech"⟩], 0⟩, [])) :=
  postSubscribers_missing_field (memStore hexScheme) ⟨[⟨"a1", "Alice", "Tech"⟩], 0⟩
    [("subscribedChannel", .str "Tech")] (Or.inl (by decide))

/-- C4. `GET /subscribers/:id` with an identifier for which `findById` answers
null (a well-formed identifier of no record) answers 404 with the body
`{message: "Subscriber not found"}`. -/
theorem getSubscribersId_not_found {σ : Type} (S : Store σ) (s : σ) (id : String)
    (hid : id ≠ "") (h : (S.findById id s).1 = .ok none) :
    (getSubscribersId S id s).1 = .sent ⟨404, .message "Subscriber not found"⟩ := by
  unfold getSubscribersId
  rcases hres : S.findById id s with ⟨r, s1⟩
  rw [hres] at h
  simp only at h
  subst h
  simp [hid]

/-- C4, at the empty store. -/
theorem getSubscribersId_not_found_witness :
    (getSubscribersId (memStore hexScheme) "abc" MemState.empty).1 =
      .sent ⟨404, .message "Subscriber not found"⟩ :=
  getSubscribersId_not_found (memStore hexScheme) MemState.empty "abc" (by decide) (by rfl)

/-- C8. For the handlers `GET /subscribers/:id`, `POST /subscribers`,
`POST /subscribers/names`, `POST /subscribers/:id` and `DELETE /subscribers/:id`
and a request that passes the presence checks of the handler: when the store
call of the handler fails with error `e`, the response is 400 with the body
`{message: e.message}`, and the call log holds that one call and nothing else. -/
theorem store_error_reported {σ : Type} (S : Store σ) (s : σ) (h : Handler) (id : String)
    (body : Doc) (c : Call) (e : StoreError)
    (hh : h ∈ [Handler.byId, Handler.create, Handler.createNames, Handler.createById,
      Handler.remove])
    (hv : ∀ f ∈ requiredFields h, f.missing id body = false)
    (hc : storeCall h id body = some c)
    (he : S.failure c s = some e) :
    (runHandler S h id body s).1 = .sent ⟨400, .message e.message⟩ ∧
      (runHandler S.logged h id body (s, [])).1 = .sent ⟨400, .message e.message⟩ ∧
      (runHandler S.logged h id body (s, [])).2.2 = [c] := by
  simp only [List.mem_cons, List.mem_singleton, List.not_mem_nil, or_false] at hh
  rcases hh with rfl | rfl | rfl | rfl | rfl
  · simp [requiredFields, Field.missing] at hv
    simp only [storeCall, Option.some.injEq] at hc
    subst hc
    simp only [Store.failure] at he
    rcases hres : S.findById id s with ⟨r, s1⟩
    rw [hres] at he
    cases r with
    | error e2 =>
      simp at he
      subst he
      simp [runHandler, getSubscribersId, hv, hres, Store.logged]
    | ok v => simp at he
  · simp [requiredFields, Field.missing] at hv
    simp only [storeCall, Option.some.injEq] at hc
    subst hc
    simp only [Store.failure] at he
    rcases hres : S.save [("name", body.get "name"),
      ("subscribedChannel", body.get "subscribedChannel")] s with ⟨r, s1⟩
    rw [hres] at he
    cases r with
    | error e2 =>
      simp at he
      subst he
      simp [runHandler, postSubscribers, hv, hres, Store.logged]
    | ok v => simp at he
  · simp [requiredFields, Field.missing] at hv
    simp only [storeCall, Option.some.injEq] at hc
    subst hc
    simp only [Store.failure] at he
    rcases hres : S.save [("name", body.get "name"),
      ("subscribedChannel", body.get "subscribedChannel")] s with ⟨r, s1⟩
    rw [hres] at he
    cases r with
    | error e2 =>
      simp at he
      subst he
      simp [runHandler, postSubscribersNames, hv, hres, Store.logged]
    | ok v => simp at he
  · simp [requiredFields, Field.missing] at hv
    simp only [storeCall, Option.some.injEq] at hc
    subst hc
    simp only [Store.failure] at he
    rcases hres : S.save [("_id", .str id), ("name", body.get "name"),
      ("subscribedChannel", body.get "subscribedChannel")] s with ⟨r, s1⟩
    rw [hres] at he
    cases r with
    | error e2 =>
      simp at he
      subst he
      simp [runHandler, postSubscribersId, hv, hres, Store.logged]
    | ok v => simp at he
  · simp [requiredFields, Field.missing] at hv
    simp only [storeCall, Option.some.injEq] at hc
    subst hc
    simp only [Store.failure] at he
    rcases hres : S.findByIdAndDelete id s with ⟨r, s1⟩
    rw [hres] at he
    cases r with
    | error e2 =>
      simp at he
      subst he
      simp [runHandler, deleteSubscribersId, hv, hres, Store.logged]
    | ok v => simp at he

/-- C8, at `GET /subscribers/xyz` on a store that rejects `xyz` as malformed. -/
theorem store_error_reported_witness :
    (runHandler (memStore hexScheme) .byId "xyz" [] MemState.empty).1 =
        .sent ⟨400, .message "malformed id"⟩ ∧
      (runHandler (memStore hexScheme).logged .byId "xyz" [] (MemState.empty, [])).1 =
        .sent ⟨400, .message "malformed id"⟩ ∧
      (runHandler (memStore hexScheme).logged .byId "xyz" [] (MemState.empty, [])).2.2 =
        [Call.findById "xyz"] :=
  store_error_reported (memStore hexScheme) MemState.empty .byId "xyz" [] (Call.findById "xyz")
    ⟨"malformed id"⟩ (by decide) (by decide) rfl rfl

/-- No listed route is the final middleware. -/
theorem listedRoute_ne_fallback (m : Method) (path : String) :
    listedRoute m path ≠ some Handler.fallback := by
  unfold listedRoute
  intro h
  split at h
  · split at h <;> simp at h
  · split at h
    · split at h
      · simp at h
      · split at h <;> simp at h
    · simp at h
  · split at h
    · split at h
      · split at h <;> simp at h
      · split at h
        · split at h <;> simp at h
        · split at h <;> simp at h
    · simp at h
  · simp at h

/-- The walk through the routes of `app.js` and the table of the listed routes
agree on every request whose path has no parameter that cannot be decoded: the
walk ends at the final middleware when no listed route matches, and at the
handler of the listed route otherwise. -/
theorem route_listed (m : Method) (path : String) (b : RequestBody)
    (hd : undecodable path = false) :
    (listedRoute m path = none → route ⟨m, path, b⟩ = .handler .fallback []) ∧
      (∀ h, listedRoute m path = some h → ∃ ps, route ⟨m, path, b⟩ = .handler h ps) := by
  unfold undecodable at hd
  unfold listedRoute
  simp only [route, routes, firstMatch, matchPath]
  cases hps : pathSegments path with
  | none => simp
  | some segs =>
    rw [hps] at hd
    rcases segs with _ | ⟨a, _ | ⟨x, _ | ⟨y, rest⟩⟩⟩
    · cases m <;> simp [matchPattern, decodeParams, handlesMethod, Method.isGet]
    · by_cases ha : segEq a "subscribers" = true
      · cases m <;> simp [matchPattern, decodeParams, handlesMethod, Method.isGet, ha]
      · cases m <;> simp [matchPattern, decodeParams, handlesMethod, Method.isGet, ha]
    · by_cases ha : segEq a "subscribers" = true
      · by_cases hx : x = ""
        · subst hx
          have hn : segEq "" "names" = false := by decide
          cases m <;> simp [matchPattern, decodeParams, handlesMethod, Method.isGet, ha, hn]
        · cases hdx : decodeURIComponent x with
          | none =>
            simp [ha, hx, hdx] at hd
          | some d =>
            by_cases hn : segEq x "names" = true
            · cases m <;>
                simp [matchPattern, decodeParams, handlesMethod, Method.isGet, ha, hx, hn, hdx]
            · cases m <;>
                simp [matchPattern, decodeParams, handlesMethod, Method.isGet, ha, hx, hn, hdx]
      · cases m <;> simp [matchPattern, decodeParams, handlesMethod, Method.isGet, ha]
    · cases m <;> simp [matchPattern, decodeParams, handlesMethod, Method.isGet]

/-- C7, as stated, fails.  `PUT /nope` and `PUT /subscribers/%zz` match none of
the registered routes.  The first, sent with a body that the JSON parser of
`app.js` 11 rejects, is answered 400 by the framework's error handler, and so
is the second, whose path parameter cannot be decoded; neither gets the 404 of
the final middleware. -/
theorem unmatched_route_answered_400 :
    listedRoute .PUT "/nope" = none ∧
      (app (memStore hexScheme)
          ⟨.PUT, "/nope", .rejected ⟨400, "Unexpected token b in JSON at position 1"⟩⟩
          MemState.empty).1 =
        ⟨400, .errorPage "Unexpected token b in JSON at position 1"⟩ ∧
      listedRoute .PUT "/subscribers/%zz" = none ∧
      (app (memStore hexScheme) ⟨.PUT, "/subscribers/%zz", .parsed []⟩ MemState.empty).1 =
        ⟨400, .errorPage "Failed to decode param \x27%zz\x27"⟩ := by
  refine ⟨by decide, by decide, by decide, by decide⟩

/-- C7, amended.  For a request whose body the body parsers accept and whose
path has no parameter that cannot be decoded: the request reaches the final
middleware exactly when its method and path match none of the listed routes (a
`HEAD` request matching the `GET` routes); then the application answers 404
with the body `{message: "Error - Route not found"}`, calls no store operation
and leaves the store state as it was; and a request that matches a listed route
is answered by the handler of that route, which is not the final middleware. -/
theorem unmatched_route_not_found {σ : Type} (S : Store σ) (s : σ) (m : Method)
    (path : String) (body : Doc) (hd : undecodable path = false) :
    (listedRoute m path = none ↔
        route ⟨m, path, .parsed body⟩ = .handler Handler.fallback []) ∧
      (listedRoute m path = none →
        app S.logged ⟨m, path, .parsed body⟩ (s, []) =
          (⟨404, .message "Error - Route not found"⟩, (s, []))) ∧
      (∀ h, listedRoute m path = some h →
        h ≠ Handler.fallback ∧
        ∃ ps, route ⟨m, path, .parsed body⟩ = .handler h ps ∧
          app S ⟨m, path, .parsed body⟩ s =
            (finalize (runHandler S h (ps.headD "") body s).1,
              (runHandler S h (ps.headD "") body s).2)) := by
  obtain ⟨hnone, hsome⟩ := route_listed m path (.parsed body) hd
  refine ⟨⟨hnone, fun hr => ?_⟩, fun hno => ?_, fun h hh => ?_⟩
  · cases hl : listedRoute m path with
    | none => rfl
    | some h =>
      obtain ⟨ps, hps⟩ := hsome h hl
      rw [hps] at hr
      simp only [Routed.handler.injEq] at hr
      exact absurd (hr.1 ▸ hl) (listedRoute_ne_fallback m path)
  · simp [app, hnone hno, runHandler, notFound, finalize]
  · refine ⟨fun he => listedRoute_ne_fallback m path (he ▸ hh), ?_⟩
    obtain ⟨ps, hps⟩ := hsome h hh
    exact ⟨ps, hps, by simp [app, hps]⟩

/-- C7, amended, at `PUT /subscribers/abc`, which matches no listed route. -/
theorem unmatched_route_not_found_witness :
    undecodable "/subscribers/abc" = false ∧
      app (memStore hexScheme).logged ⟨.PUT, "/subscribers/abc", .parsed []⟩
          (MemState.empty, []) =
        (⟨404, .message "Error - Route not found"⟩, (MemState.empty, [])) :=
  ⟨by decide,
    (unmatched_route_not_found (memStore hexScheme) MemState.empty .PUT "/subscribers/abc" []
      (by decide)).2.1 (by decide)⟩

/-- The value of a path parameter reaches the handler percent-decoded. -/
theorem route_decodes_param (b : RequestBody) :
    route ⟨.GET, "/subscribers/a%20b", b⟩ = .handler .byId ["a b"] := by
  rfl

/-- C9. On the record store, `GET /subscribers` leaves the store state as it
was, and two requests in a row get the same response: status 200 and the array
of all records with all their fields, which is the empty array when the store
holds no record. -/
theorem getSubscribers_repeatable (sch : IdScheme) (st : MemState) (n : Nat) :
    (getSubscribers (memStore sch) st).2 = st ∧
      (getSubscribers (memStore sch) (getSubscribers (memStore sch) st).2).1 =
        (getSubscribers (memStore sch) st).1 ∧
      (getSubscribers (memStore sch) st).1 =
        .sent ⟨200, .docs (st.records.map Subscriber.toDoc)⟩ ∧
      (getSubscribers (memStore sch) ⟨[], n⟩).1 = .sent ⟨200, .docs []⟩ := by
  have h1 : getSubscribers (memStore sch) st =
      (.sent ⟨200, .docs (st.records.map Subscriber.toDoc)⟩, st) := by
    simp [getSubscribers, memStore]
  refine ⟨by rw [h1], by simp only [h1], by rw [h1], ?_⟩
  simp [getSubscribers, memStore]

/-! ### Facts about the record store -/

/-- What a successful insertion has checked and done. -/
theorem memInsert_ok (sch : IdScheme) (id name ch : String) (st st1 : MemState) (out : Doc)
    (h : memInsert sch id name ch st = (.ok out, st1)) :
    sch.wellFormed id = true ∧ id ∉ st.ids ∧ out = Subscriber.toDoc ⟨id, name, ch⟩ ∧
      st1 = ⟨st.records ++ [⟨id, name, ch⟩], st.counter⟩ := by
  unfold memInsert at h
  by_cases hw : sch.wellFormed id = true
  · by_cases hm : id ∈ st.ids
    · simp [hw, hm] at h
    · simp [hw, hm] at h
      exact ⟨hw, hm, h.1.symm, h.2.symm⟩
  · simp [hw] at h

/-- What a successful `save` has checked and done: the document carried a
non-empty name and channel, the record got a well-formed identifier that no
record had, and it was added to the records. -/
theorem memStore_save_ok (sch : IdScheme) (d out : Doc) (st st1 : MemState)
    (h : (memStore sch).save d st = (.ok out, st1)) :
    ∃ id name ch, d.get "name" = .str name ∧ d.get "subscribedChannel" = .str ch ∧
      name ≠ "" ∧ ch ≠ "" ∧ sch.wellFormed id = true ∧ id ∉ st.ids ∧
      out = Subscriber.toDoc ⟨id, name, ch⟩ ∧ st1.records = st.records ++ [⟨id, name, ch⟩] := by
  simp only [memStore] at h
  split at h
  · rename_i name ch hn hc
    by_cases he : (name = "" || ch = "") = true
    · simp [he] at h
    · rw [if_neg he] at h
      simp only [Bool.or_eq_true, decide_eq_true_eq, not_or] at he
      split at h
      · have := memInsert_ok sch _ name ch _ st1 out h
        exact ⟨_, name, ch, hn, hc, he.1, he.2, this.1, this.2.1, this.2.2.1,
          by rw [this.2.2.2]⟩
      · have := memInsert_ok sch _ name ch _ st1 out h
        exact ⟨_, name, ch, hn, hc, he.1, he.2, this.1, this.2.1, this.2.2.1,
          by rw [this.2.2.2]⟩
      · simp at h
  · simp at h

/-- Looking up an identifier that the last record carries and no earlier one. -/
theorem lookup_append_new (rs : List Subscriber) (r : Subscriber)
    (h : r._id ∉ rs.map (fun x => x._id)) :
    (rs ++ [r]).find? (fun x => x._id == r._id) = some r := by
  induction rs with
  | nil => simp
  | cons x xs ih =>
    simp only [List.map_cons, List.mem_cons, not_or] at h
    have hx : (x._id == r._id) = false := by
      simp only [beq_eq_false_iff_ne, ne_eq]
      exact fun e => h.1 e.symm
    simp only [List.cons_append, List.find?_cons, hx]
    exact ih h.2

/-- After the records with identifier `id` are removed, none is found. -/
theorem lookup_filter_none (rs : List Subscriber) (id : String) :
    (rs.filter (fun x => x._id != id)).find? (fun x => x._id == id) = none := by
  rw [List.find?_eq_none]
  intro x hx
  simp only [List.mem_filter, bne_iff_ne, ne_eq] at hx
  simp [hx.2]

/-- In a valid store the record found under the identifier of a record is that record. -/
theorem lookup_of_mem (sch : IdScheme) (st : MemState) (r : Subscriber)
    (hv : st.Valid sch) (hr : r ∈ st.records) : st.lookup r._id = some r := by
  unfold MemState.lookup
  cases hf : st.records.find? (fun x => x._id == r._id) with
  | none =>
    rw [List.find?_eq_none] at hf
    have := hf r hr
    simp at this
  | some x =>
    have hx : x ∈ st.records := List.mem_of_find?_eq_some hf
    have hxi : (x._id == r._id) = true :=
      @List.find?_some Subscriber (fun y => y._id == r._id) x st.records hf
    simp only [beq_iff_eq] at hxi
    have := List.inj_on_of_nodup_map hv.1 hx hr hxi
    rw [this]

/-- C1. On the record store, for a body whose `name` and `subscribedChannel` are
non-empty texts: when the store's create succeeds with the document `d`,
`POST /subscribers` answers 201 with `d`, whose name and channel are the ones of
the request and whose identifier is the identifier of no record that was in the
store before. -/
theorem postSubscribers_created (sch : IdScheme) (st : MemState) (body d : Doc)
    (name ch : String)
    (hn : body.get "name" = .str name) (hc : body.get "subscribedChannel" = .str ch)
    (hne : name ≠ "") (hce : ch ≠ "")
    (hok : ((memStore sch).save [("name", .str name), ("subscribedChannel", .str ch)] st).1 =
      .ok d) :
    (postSubscribers (memStore sch) body st).1 = .sent ⟨201, .doc d⟩ ∧
      d.get "name" = .str name ∧ d.get "subscribedChannel" = .str ch ∧
      ∃ id, d.get "_id" = .str id ∧ id ∉ st.ids := by
  rcases hres : (memStore sch).save [("name", .str name), ("subscribedChannel", .str ch)] st
    with ⟨r, st1⟩
  rw [hres] at hok
  simp only at hok
  subst hok
  obtain ⟨id, n2, c2, h1, h2, -, -, -, hfresh, hout, -⟩ :=
    memStore_save_ok sch _ d st st1 hres
  have e1 : n2 = name := by
    simp [Doc.get, List.lookup] at h1
    exact h1.symm
  have e2 : c2 = ch := by
    simp [Doc.get, List.lookup] at h2
    exact h2.symm
  subst e1 e2
  refine ⟨?_, ?_, ?_, id, ?_, hfresh⟩
  · simp [postSubscribers, hn, hc, JVal.truthy, hne, hce, hres]
  · simp [hout, Subscriber.toDoc, Doc.get, List.lookup]
  · simp [hout, Subscriber.toDoc, Doc.get, List.lookup]
  · simp [hout, Subscriber.toDoc, Doc.get, List.lookup]

/-- C1, at the empty store and the body `{name: "Alice", subscribedChannel: "Tech"}`. -/
theorem postSubscribers_created_witness :
    (postSubscribers (memStore hexScheme)
        [("name", .str "Alice"), ("subscribedChannel", .str "Tech")] MemState.empty).1 =
        .sent ⟨201, .doc (Subscriber.toDoc ⟨"1", "Alice", "Tech"⟩)⟩ ∧
      (Subscriber.toDoc ⟨"1", "Alice", "Tech"⟩).get "name" = .str "Alice" ∧
      (Subscriber.toDoc ⟨"1", "Alice", "Tech"⟩).get "subscribedChannel" = .str "Tech" ∧
      ∃ id, (Subscriber.toDoc ⟨"1", "Alice", "Tech"⟩).get "_id" = .str id ∧
        id ∉ MemState.empty.ids :=
  postSubscribers_created hexScheme MemState.empty
    [("name", .str "Alice"), ("subscribedChannel", .str "Tech")]
    (Subscriber.toDoc ⟨"1", "Alice", "Tech"⟩) "Alice" "Tech" rfl rfl (by decide) (by decide) rfl

/-- C3. On the record store: after `POST /subscribers` has answered 201 with a
document `d` whose identifier is `id`, `GET /subscribers/id` on the resulting
store answers 200 with `d`, and the name and channel of `d` are the ones that
were posted. -/
theorem create_then_read (sch : IdScheme) (st : MemState) (body d : Doc) (id : String)
    (hpost : (postSubscribers (memStore sch) body st).1 = .sent ⟨201, .doc d⟩)
    (hid : d.get "_id" = .str id) :
    (getSubscribersId (memStore sch) id (postSubscribers (memStore sch) body st).2).1 =
        .sent ⟨200, .doc d⟩ ∧
      d.get "name" = body.get "name" ∧
      d.get "subscribedChannel" = body.get "subscribedChannel" := by
  unfold postSubscribers at hpost ⊢
  simp only at hpost ⊢
  split at hpost
  · simp at hpost
  · rename_i hval
    rw [if_neg hval]
    rcases hres : (memStore sch).save
      [("name", body.get "name"), ("subscribedChannel", body.get "subscribedChannel")] st
      with ⟨r, st1⟩
    rw [hres] at hpost
    cases r with
    | error e => simp at hpost
    | ok out =>
      simp only [Outcome.sent.injEq, Response.mk.injEq, Body.doc.injEq, true_and] at hpost
      subst hpost
      obtain ⟨i2, n2, c2, h1, h2, -, -, hwf, hfresh, hout, hrec⟩ :=
        memStore_save_ok sch _ out st st1 hres
      have h1b : body.get "name" = .str n2 := by
        simpa [Doc.get, List.lookup] using h1
      have h2b : body.get "subscribedChannel" = .str c2 := by
        simpa [Doc.get, List.lookup] using h2
      have hi : i2 = id := by
        simp [hout, Subscriber.toDoc, Doc.get, List.lookup] at hid
        exact hid
      subst hi
      have hne : i2 ≠ "" := by
        intro he
        rw [he, sch.wellFormed_empty] at hwf
        exact Bool.false_ne_true hwf
      have hlook : st1.lookup i2 = some ⟨i2, n2, c2⟩ := by
        unfold MemState.lookup
        rw [hrec]
        exact lookup_append_new st.records ⟨i2, n2, c2⟩ hfresh
      refine ⟨?_, ?_, ?_⟩
      · simp [getSubscribersId, hne, memStore, hwf, hlook, hout]
      · rw [h1b, hout]
        simp [Subscriber.toDoc, Doc.get, List.lookup]
      · rw [h2b, hout]
        simp [Subscriber.toDoc, Doc.get, List.lookup]

/-- C3, with name "Alice" and channel "Tech" on the empty store. -/
theorem create_then_read_witness :
    (getSubscribersId (memStore hexScheme) "1"
        (postSubscribers (memStore hexScheme)
          [("name", .str "Alice"), ("subscribedChannel", .str "Tech")] MemState.empty).2).1 =
        .sent ⟨200, .doc (Subscriber.toDoc ⟨"1", "Alice", "Tech"⟩)⟩ ∧
      (Subscriber.toDoc ⟨"1", "Alice", "Tech"⟩).get "name" =
        Doc.get [("name", .str "Alice"), ("subscribedChannel", .str "Tech")] "name" ∧
      (Subscriber.toDoc ⟨"1", "Alice", "Tech"⟩).get "subscribedChannel" =
        Doc.get [("name", .str "Alice"), ("subscribedChannel", .str "Tech")]
          "subscribedChannel" :=
  create_then_read hexScheme MemState.empty
    [("name", .str "Alice"), ("subscribedChannel", .str "Tech")]
    (Subscriber.toDoc ⟨"1", "Alice", "Tech"⟩) "1" (by decide) (by decide)

/-- C5. On the record store, for a record `r` of a valid store state:
`DELETE /subscribers/:id` with the identifier of `r` answers 200 with
`{message, deletedSubscriber}` where `deletedSubscriber` is `r`; afterwards no
record has that identifier while every other record is still there; and on the
resulting store `GET /subscribers/:id` answers 404 and a second
`DELETE /subscribers/:id` answers 404 with the message "Subscriber not found". -/
theorem delete_then_gone (sch : IdScheme) (st : MemState) (r : Subscriber)
    (hv : st.Valid sch) (hr : r ∈ st.records) :
    (deleteSubscribersId (memStore sch) r._id st).1 =
        .sent ⟨200, .deleted "Subscriber deleted successfully" r.toDoc⟩ ∧
      r._id ∉ (deleteSubscribersId (memStore sch) r._id st).2.ids ∧
      (∀ x ∈ st.records, x._id ≠ r._id →
        x ∈ (deleteSubscribersId (memStore sch) r._id st).2.records) ∧
      (getSubscribersId (memStore sch) r._id
          (deleteSubscribersId (memStore sch) r._id st).2).1 =
        .sent ⟨404, .message "Subscriber not found"⟩ ∧
      (deleteSubscribersId (memStore sch) r._id
          (deleteSubscribersId (memStore sch) r._id st).2).1 =
        .sent ⟨404, .message "Subscriber not found"⟩ := by
  have hwf : sch.wellFormed r._id = true := (hv.2 r hr).1
  have hne : r._id ≠ "" := by
    intro he
    rw [he, sch.wellFormed_empty] at hwf
    exact Bool.false_ne_true hwf
  have hlook : st.lookup r._id = some r := lookup_of_mem sch st r hv hr
  have h1 : deleteSubscribersId (memStore sch) r._id st =
      (.sent ⟨200, .deleted "Subscriber deleted successfully" r.toDoc⟩,
        ⟨st.records.filter (fun x => x._id != r._id), st.counter⟩) := by
    simp [deleteSubscribersId, hne, memStore, hwf, hlook]
  have hgone : MemState.lookup
      ⟨st.records.filter (fun x => x._id != r._id), st.counter⟩ r._id = none :=
    lookup_filter_none st.records r._id
  rw [h1]
  refine ⟨rfl, ?_, ?_, ?_, ?_⟩
  · simp [MemState.ids]
  · intro x hx hxr
    simp [List.mem_filter, hx, hxr]
  · simp [getSubscribersId, hne, memStore, hwf, hgone]
  · simp [deleteSubscribersId, hne, memStore, hwf, hgone]

/-- C5, at a store of two records. -/
theorem delete_then_gone_witness :
    (deleteSubscribersId (memStore hexScheme) "a1"
        ⟨[⟨"a1", "Alice", "Tech"⟩, ⟨"b2", "Bob", "Music"⟩], 0⟩).1 =
        .sent ⟨200, .deleted "Subscriber deleted successfully"
          (Subscriber.toDoc ⟨"a1", "Alice", "Tech"⟩)⟩ ∧
      "a1" ∉ (deleteSubscribersId (memStore hexScheme) "a1"
        ⟨[⟨"a1", "Alice", "Tech"⟩, ⟨"b2", "Bob", "Music"⟩], 0⟩).2.ids ∧
      (∀ x ∈ [(⟨"a1", "Alice", "Tech"⟩ : Subscriber), ⟨"b2", "Bob", "Music"⟩],
        x._id ≠ "a1" →
        x ∈ (deleteSubscribersId (memStore hexScheme) "a1"
          ⟨[⟨"a1", "Alice", "Tech"⟩, ⟨"b2", "Bob", "Music"⟩], 0⟩).2.records) ∧
      (getSubscribersId (memStore hexScheme) "a1"
          (deleteSubscribersId (memStore hexScheme) "a1"
            ⟨[⟨"a1", "Alice", "Tech"⟩, ⟨"b2", "Bob", "Music"⟩], 0⟩).2).1 =
        .sent ⟨404, .message "Subscriber not found"⟩ ∧
      (deleteSubscribersId (memStore hexScheme) "a1"
          (deleteSubscribersId (memStore hexScheme) "a1"
            ⟨[⟨"a1", "Alice", "Tech"⟩, ⟨"b2", "Bob", "Music"⟩], 0⟩).2).1 =
        .sent ⟨404, .message "Subscriber not found"⟩ :=
  delete_then_gone hexScheme ⟨[⟨"a1", "Alice", "Tech"⟩, ⟨"b2", "Bob", "Music"⟩], 0⟩
    ⟨"a1", "Alice", "Tech"⟩
    ⟨by decide, by decide⟩ (by decide)

/-- C6. A `GET` request for the path `/subscribers/names` goes to the names
handler, not to the handler of `/subscribers/:id`; and on the record store the
application answers 200 with an array that has one element for each record, in
order, made of the name and the channel of the record, and no element has a
field `_id` or `id`. -/
theorem names_projection (sch : IdScheme) (st : MemState) (b : RequestBody) (body : Doc) :
    route ⟨.GET, "/subscribers/names", b⟩ = .handler Handler.names [] ∧
      ∃ ds : List Doc,
        (app (memStore sch) ⟨.GET, "/subscribers/names", .parsed body⟩ st).1 =
          ⟨200, .docs ds⟩ ∧
        ds = st.records.map (fun r =>
          [("name", JVal.str r.name), ("subscribedChannel", JVal.str r.subscribedChannel)]) ∧
        ds.length = st.records.length ∧
        ∀ d ∈ ds, d.hasField "_id" = false ∧ d.hasField "id" = false := by
  have hroute : ∀ c : RequestBody,
      route ⟨.GET, "/subscribers/names", c⟩ = .handler Handler.names [] := fun _ => rfl
  refine ⟨hroute b, _, ?_, rfl, by simp, ?_⟩
  · simp [app, hroute, runHandler, getSubscribersNames, memStore, finalize, applyProjection,
      namesProjection, Subscriber.toDoc, List.lookup]
  · intro d hd
    simp only [List.mem_map] at hd
    obtain ⟨r, -, rfl⟩ := hd
    simp [Doc.hasField, List.lookup]

/-- C10, as stated, fails: `POST /subscribers` with the body
`{subscribedChannel: "Tech"}` lacks only `name`, and the message of the 400
response also names the subscribed channel, so it does not enumerate the
missing fields. -/
theorem rejection_message_not_enumerating :
    (runHandler (memStore hexScheme) .create "" [("subscribedChannel", .str "Tech")]
        MemState.empty).1 = .sent ⟨400, .message "Name and Subscribed Channel are required"⟩ ∧
      ¬ enumeratesMissing "Name and Subscribed Channel are required" .create ""
        [("subscribedChannel", .str "Tech")] := by
  refine ⟨by decide, fun h => ?_⟩
  have h2 := (h Field.subscribedChannel (by decide)).1 (by decide)
  exact absurd h2 (by decide)

/-- C10, amended. A create request (`POST /subscribers`, `POST /subscribers/names`,
`POST /subscribers/:id`) from which a required field is missing gets status 400
and the fixed message of its handler, without a store call and with the store
state as it was; that message names every field the handler requires,
whichever of them are missing. -/
theorem create_rejection_fixed_message {σ : Type} (S : Store σ) (s : σ) (h : Handler)
    (id : String) (body : Doc)
    (hh : h ∈ [Handler.create, Handler.createNames, Handler.createById])
    (hm : ∃ f ∈ requiredFields h, f.missing id body = true) :
    runHandler S.logged h id body (s, []) =
        (.sent ⟨400, .message (rejectionMessage h)⟩, (s, [])) ∧
      ∀ f ∈ requiredFields h, mentions (rejectionMessage h) f = true := by
  simp only [List.mem_cons, List.mem_singleton, List.not_mem_nil, or_false] at hh
  rcases hh with rfl | rfl | rfl
  · refine ⟨?_, by decide⟩
    simp only [requiredFields, List.mem_cons, List.mem_singleton, List.not_mem_nil, or_false,
      exists_eq_or_imp, exists_eq_left, Field.missing] at hm
    rcases hm with hm | hm <;> simp [runHandler, postSubscribers, rejectionMessage, hm]
  · refine ⟨?_, by decide⟩
    simp only [requiredFields, List.mem_cons, List.mem_singleton, List.not_mem_nil, or_false,
      exists_eq_or_imp, exists_eq_left, Field.missing] at hm
    rcases hm with hm | hm <;> simp [runHandler, postSubscribersNames, rejectionMessage, hm]
  · refine ⟨?_, by decide⟩
    simp only [requiredFields, List.mem_cons, List.mem_singleton, List.not_mem_nil, or_false,
      exists_eq_or_imp, exists_eq_left, Field.missing] at hm
    rcases hm with hm | hm | hm
    · have hid : id = "" := by simpa using hm
      simp [runHandler, postSubscribersId, rejectionMessage, hid]
    · simp [runHandler, postSubscribersId, rejectionMessage, hm]
    · simp [runHandler, postSubscribersId, rejectionMessage, hm]

/-- C10, amended, at `POST /subscribers/names` with an empty name. -/
theorem create_rejection_fixed_message_witness :
    runHandler (memStore hexScheme).logged .createNames ""
        [("name", .str ""), ("subscribedChannel", .str "Tech")] (MemState.empty, []) =
        (.sent ⟨400, .message (rejectionMessage .createNames)⟩, (MemState.empty, [])) ∧
      ∀ f ∈ requiredFields .createNames, mentions (rejectionMessage .createNames) f = true :=
  create_rejection_fixed_message (memStore hexScheme) MemState.empty .createNames ""
    [("name", .str ""), ("subscribedChannel", .str "Tech")] (by decide)
    ⟨Field.name, by decide, by decide⟩

/-! ### The invariant of the record store -/

/-- The empty store is valid. -/
theorem valid_empty (sch : IdScheme) : MemState.empty.Valid sch := by
  simp [MemState.Valid, MemState.empty, MemState.ids]

/-- Reading leaves the record store as it was. -/
theorem memStore_read_unchanged (sch : IdScheme) (st : MemState) (p : Option Projection)
    (id : String) :
    ((memStore sch).find p st).2 = st ∧ ((memStore sch).findById id st).2 = st := by
  constructor
  · cases p <;> simp [memStore]
  · by_cases hw : sch.wellFormed id = true <;> simp [memStore, hw]

/-- Saving keeps the record store valid. -/
theorem valid_save (sch : IdScheme) (st : MemState) (d : Doc) (hv : st.Valid sch) :
    ((memStore sch).save d st).2.Valid sch := by
  rcases hres : (memStore sch).save d st with ⟨r, st1⟩
  cases r with
  | ok out =>
    obtain ⟨id, name, ch, -, -, hn, hc, hwf, hfresh, -, hrec⟩ :=
      memStore_save_ok sch d out st st1 hres
    simp only [MemState.Valid, MemState.ids, hrec, List.map_append, List.map_cons,
      List.map_nil, List.mem_append, List.mem_singleton]
    constructor
    · rw [List.nodup_append]
      refine ⟨hv.1, List.nodup_singleton _, ?_⟩
      intro a ha hb
      simp only [List.mem_singleton] at hb
      subst hb
      exact hfresh ha
    · intro x hx
      rcases hx with hx | rfl
      · exact hv.2 x hx
      · exact ⟨hwf, hn, hc⟩
  | error e =>
    have hsame : st1.records = st.records := by
      simp only [memStore] at hres
      split at hres
      · split at hres
        · simp only [Prod.mk.injEq] at hres
          rw [← hres.2]
        · split at hres
          · unfold memInsert at hres
            split at hres
            · simp only [Prod.mk.injEq] at hres
              rw [← hres.2]
            · split at hres
              · simp only [Prod.mk.injEq] at hres
                rw [← hres.2]
              · simp at hres
          · unfold memInsert at hres
            split at hres
            · simp only [Prod.mk.injEq] at hres
              rw [← hres.2]
            · split at hres
              · simp only [Prod.mk.injEq] at hres
                rw [← hres.2]
              · simp at hres
          · simp only [Prod.mk.injEq] at hres
            rw [← hres.2]
      · simp only [Prod.mk.injEq] at hres
        rw [← hres.2]
    simp only [MemState.Valid, MemState.ids, hsame]
    exact hv

/-- Deleting keeps the record store valid. -/
theorem valid_delete (sch : IdScheme) (st : MemState) (id : String) (hv : st.Valid sch) :
    ((memStore sch).findByIdAndDelete id st).2.Valid sch := by
  simp only [memStore]
  split
  · split
    · exact hv
    · constructor
      · exact (hv.1.sublist (List.Sublist.map _ (List.filter_sublist _)))
      · intro x hx
        exact hv.2 x (List.mem_of_mem_filter hx)
  · exact hv

end Subscribers
